import Mathlib

/-!
Shallow embedding of the form-validation subsystem of the repository
(`Form.vue`): the error model, the schema adapter (duck-typed detection and
per-library normalization of native validation issues), the validation
orchestrator (`validate`, `clear`, `setErrors`), submit handling
(`onSubmit`) and the event-bus listener.

Conventions of the embedding:
 * JavaScript `x !== undefined` tests on a schema object are modelled by a
   `Bool` field `has...`; truthiness tests (`schema.validate &&
   schema.__isYupSchema__`) by a `...Truthy` field.
 * Asynchronous functions that can throw are modelled as `Except JsError`.
 * A schema object is modelled together with the outcome its native
   validation produces on the form state under consideration, since the
   state is fixed for any one validation pass.
-/

namespace NuxtForm

/-- The error model from `types/form`: one field-level failure `{path, message}`. -/
structure FormError where
  path : String
  message : String
deriving DecidableEq

/-- Lifecycle event types `FormEventType`: blur, input, change, submit. -/
inductive FormEventType where
  | blur
  | input
  | change
  | submit
deriving DecidableEq

/-- A `FormEvent` delivered on the form event bus. -/
structure FormEvent where
  type : FormEventType
  path : String
deriving DecidableEq

/-- An error enriched for the error emit: `{...err, id: inputs.value[err.path]}`. -/
structure FormErrorWithId where
  path : String
  message : String
  id : Option String
deriving DecidableEq

/-- Duck-typing-relevant shape of a supplied schema object.
`hasParse` models `schema.parse !== undefined`; `validateTruthy` and
`yupMarkerTruthy` model the truthiness of `schema.validate` and
`schema.__isYupSchema__`; `hasValidateAsync` and `hasId` model
`schema.validateAsync !== undefined` and `schema.id !== undefined`;
`hasUnderscoreParse` models `schema._parse !== undefined`. -/
structure SchemaShape where
  hasParse : Bool
  validateTruthy : Bool
  yupMarkerTruthy : Bool
  hasValidateAsync : Bool
  hasId : Bool
  hasUnderscoreParse : Bool
deriving DecidableEq

/-- `isZodSchema`: `schema.parse !== undefined`. -/
def isZodSchema (s : SchemaShape) : Bool := s.hasParse

/-- `isYupSchema`: `schema.validate && schema.__isYupSchema__`. -/
def isYupSchema (s : SchemaShape) : Bool := s.validateTruthy && s.yupMarkerTruthy

/-- `isJoiSchema`: `schema.validateAsync !== undefined && schema.id !== undefined`. -/
def isJoiSchema (s : SchemaShape) : Bool := s.hasValidateAsync && s.hasId

/-- `isValibotSchema`: `schema._parse !== undefined`. -/
def isValibotSchema (s : SchemaShape) : Bool := s.hasUnderscoreParse

/-- A native zod issue: a path of segments and a message. -/
structure ZodIssue where
  path : List String
  message : String
deriving DecidableEq

/-- Result of `schema.safeParseAsync(state)` for a zod schema. -/
structure ZodParseResult where
  success : Bool
  issues : List ZodIssue
deriving DecidableEq

/-- A native yup issue: `path` may be absent (root-level), message text. -/
structure YupIssue where
  path : Option String
  message : String
deriving DecidableEq

/-- A value thrown by `schema.validate` for a yup schema. `inner = none`
models `error.inner === undefined` (not a recognized yup validation error). -/
structure YupFailure where
  inner : Option (List YupIssue)
deriving DecidableEq

/-- Outcome of awaiting `schema.validate(state, { abortEarly: false })`. -/
inductive YupOutcome where
  | ok
  | err (e : YupFailure)
deriving DecidableEq

/-- A native joi issue detail: a path of segments and a message. -/
structure JoiDetail where
  path : List String
  message : String
deriving DecidableEq

/-- A value thrown by `schema.validateAsync` for a joi schema.
`isJoi = false` models `error.isJoi !== true`. -/
structure JoiFailure where
  isJoi : Bool
  details : List JoiDetail
deriving DecidableEq

/-- Outcome of awaiting `schema.validateAsync(state, { abortEarly: false })`. -/
inductive JoiOutcome where
  | ok
  | err (e : JoiFailure)
deriving DecidableEq

/-- One step of a valibot issue path, exposing a `key`. -/
structure ValibotPathItem where
  key : String
deriving DecidableEq

/-- A native valibot issue: an optional path of keyed items and a message. -/
structure ValibotIssue where
  path : Option (List ValibotPathItem)
  message : String
deriving DecidableEq

/-- Result of awaiting `schema._parse(state)` for a valibot schema;
`issues = none` models an absent `issues` field (success). -/
structure ValibotParseResult where
  issues : Option (List ValibotIssue)
deriving DecidableEq

/-- Errors that can be thrown out of the validation subsystem:
the unsupported-schema `Error`, the `FormException` raised by a failed
non-silent validation pass (carrying the error collection rendered into its
message), and unrecognized native errors re-thrown by the normalizers. -/
inductive JsError where
  | unsupportedSchema
  | formException (errors : List FormError)
  | yupNative (e : YupFailure)
  | joiNative (e : JoiFailure)
deriving DecidableEq

/-- `getZodErrors`: on `result.success === false`, map each issue to
`{path: issue.path.join('.'), message: issue.message}`, else empty. -/
def getZodErrors (result : ZodParseResult) : List FormError :=
  if result.success = false then
    result.issues.map (fun issue =>
      { path := String.intercalate "." issue.path, message := issue.message })
  else []

/-- `getYupErrors`: success gives `[]`; a thrown error with `inner` defined
is mapped to `{path: issue.path ?? '', message: issue.message}` per inner
issue; any other thrown value is re-thrown. -/
def getYupErrors (outcome : YupOutcome) : Except JsError (List FormError) :=
  match outcome with
  | .ok => .ok []
  | .err e =>
    match e.inner with
    | some inner =>
      .ok (inner.map (fun issue =>
        { path := issue.path.getD "", message := issue.message }))
    | none => .error (.yupNative e)

/-- `getJoiErrors`: success gives `[]`; a thrown error with `isJoi === true`
is mapped to `{path: detail.path.join('.'), message: detail.message}` per
detail; any other thrown value is re-thrown. -/
def getJoiErrors (outcome : JoiOutcome) : Except JsError (List FormError) :=
  match outcome with
  | .ok => .ok []
  | .err e =>
    if e.isJoi = true then
      .ok (e.details.map (fun detail =>
        { path := String.intercalate "." detail.path, message := detail.message }))
    else .error (.joiNative e)

/-- `issue.path?.map(p => p.key).join('.')`: `none` when `path` is absent
(optional chaining short-circuits), else the keys joined with a dot. -/
def valibotJoined (p : Option (List ValibotPathItem)) : Option String :=
  p.map (fun items => String.intercalate "." (items.map (fun item => item.key)))

/-- JavaScript `x || d` on an optional string: `d` when `x` is absent or is
the (falsy) empty string. -/
def jsOrElse (x : Option String) (d : String) : String :=
  match x with
  | none => d
  | some s => if s = "" then d else s

/-- `getValibotError`: when `result.issues` is present, map each issue to
`{path: issue.path?.map(p => p.key).join('.') || '', message}`, else empty. -/
def getValibotError (result : ValibotParseResult) : List FormError :=
  match result.issues with
  | some issues =>
    issues.map (fun issue =>
      { path := jsOrElse (valibotJoined issue.path) "", message := issue.message })
  | none => []

/-- A schema object together with the outcome its native validation produces
on the form state under consideration. -/
structure SchemaVal where
  shape : SchemaShape
  zodResult : ZodParseResult
  yupOutcome : YupOutcome
  joiOutcome : JoiOutcome
  valibotResult : ValibotParseResult
deriving DecidableEq

/-- The form component props relevant to validation: the state, the
imperative `validate` prop, the optional `schema` prop, and `validateOn`. -/
structure FormCtx (α : Type) where
  state : α
  validateProp : α → List FormError
  schema : Option SchemaVal
  validateOn : List FormEventType

/-- Default of the `validate` prop: a function returning an empty sequence. -/
def defaultValidate {α : Type} : α → List FormError := fun _ => []

/-- Default of the `validateOn` prop: all four lifecycle event types. -/
def defaultValidateOn : List FormEventType :=
  [.blur, .input, .change, .submit]

/-- `getErrors()` (the internal one): run the imperative validator first,
then dispatch on the schema shape in source order (zod, yup, joi, valibot),
concatenating the normalized schema errors after the imperative results;
throw the unsupported-schema error when a schema is given but matches no
shape. -/
def getErrors {α : Type} (ctx : FormCtx α) : Except JsError (List FormError) :=
  let errs := ctx.validateProp ctx.state
  match ctx.schema with
  | none => .ok errs
  | some s =>
    if isZodSchema s.shape then
      .ok (errs ++ getZodErrors s.zodResult)
    else if isYupSchema s.shape then
      (getYupErrors s.yupOutcome).map (fun l => errs ++ l)
    else if isJoiSchema s.shape then
      (getJoiErrors s.joiOutcome).map (fun l => errs ++ l)
    else if isValibotSchema s.shape then
      .ok (errs ++ getValibotError s.valibotResult)
    else
      .error .unsupportedSchema

/-- `validate(path?, opts)`: given the prior `errors.value`, returns the
updated `errors.value` together with the promise outcome (resolution with
the unchanged state, or a thrown error). The source guards the path with
JavaScript truthiness (`if (path)`): an absent path and the falsy empty
string both take the whole-collection branch. For a truthy path, entries
for other paths are kept and fresh entries for the path are appended;
otherwise the whole collection is replaced. Non-silent mode throws a
`FormException` when the updated collection is non-empty. A throw from
`getErrors` propagates and leaves `errors.value` untouched. -/
def validate {α : Type} (ctx : FormCtx α) (prior : List FormError)
    (path : Option String) (silent : Bool) :
    List FormError × Except JsError α :=
  match getErrors ctx with
  | .error e => (prior, .error e)
  | .ok newErrs =>
    let updated :=
      match path with
      | some p =>
        if p = "" then newErrs
        else
          (prior.filter (fun e => e.path ≠ p)) ++
            (newErrs.filter (fun e => e.path = p))
      | none => newErrs
    ( updated,
      if !silent && decide (updated.length > 0) then
        .error (.formException updated)
      else
        .ok ctx.state )

/-- Exposed `clear(path?)` as written in the source: with a truthy path it
keeps exactly the entries whose path equals `path` (the filter uses `===`);
with an absent or falsy empty path (`if (path)`) it empties the
collection. -/
def clear (errors : List FormError) (path : Option String) : List FormError :=
  match path with
  | some p => if p = "" then [] else errors.filter (fun err => err.path = p)
  | none => []

/-- Exposed `setErrors(errs, path?)` as written in the source: it first
assigns `errors.value = errs` unconditionally; with a truthy path
(`if (path)`) it then filters that freshly assigned collection (not the
prior one) and concatenates `errs` again. -/
def setErrors (prior : List FormError) (errs : List FormError)
    (path : Option String) : List FormError :=
  let cur := errs
  match path with
  | some p =>
    if p = "" then errs else (cur.filter (fun e => e.path ≠ p)) ++ errs
  | none => errs

/-- Exposed `getErrors(path?)`: filtered read of the collection for a
truthy path (`if (path)`); the whole collection otherwise. -/
def getErrorsExposed (errors : List FormError) (path : Option String) :
    List FormError :=
  match path with
  | some p => if p = "" then errors else errors.filter (fun err => err.path = p)
  | none => errors

/-- Possible observable outcome of `onSubmit`: the submit emit with the form
state, the error emit with the enriched collection, or an escaped throw. -/
inductive SubmitOutcome (α : Type) where
  | submitEmitted (data : α)
  | errorEmitted (errors : List FormErrorWithId)
  | thrown (e : JsError)
deriving DecidableEq

/-- Enrichment performed by the error emit:
`{...err, id: inputs.value[err.path]}`. -/
def enrich (inputs : String → Option String) (err : FormError) :
    FormErrorWithId :=
  { path := err.path, message := err.message, id := inputs err.path }

/-- `onSubmit`: when `submit` is in `validateOn`, run a full non-silent
validation; on success emit `submit` with the state; a thrown
`FormException` is caught and routed to the `error` emit carrying the
enriched current collection; any other thrown value is re-thrown. -/
def onSubmit {α : Type} (ctx : FormCtx α) (inputs : String → Option String)
    (prior : List FormError) : List FormError × SubmitOutcome α :=
  if ctx.validateOn.contains .submit then
    match validate ctx prior none false with
    | (errs, .ok _) => (errs, .submitEmitted ctx.state)
    | (errs, .error (.formException _)) =>
      (errs, .errorEmitted (errs.map (enrich inputs)))
    | (errs, .error e) => (errs, .thrown e)
  else
    (prior, .submitEmitted ctx.state)

/-- The bus listener: on an event whose type is not `submit` and is included
in `validateOn`, re-run silent per-field validation for the event path;
otherwise the collection is untouched. -/
def busHandler {α : Type} (ctx : FormCtx α) (prior : List FormError)
    (event : FormEvent) : List FormError :=
  if event.type ≠ FormEventType.submit ∧ ctx.validateOn.contains event.type then
    (validate ctx prior (some event.path) true).1
  else prior

/-- Modelled from the spec: the path the specification prescribes for a
native issue — its path segments joined with a dot, or the empty string
when the issue has no path segments. -/
def specIssuePath (segments : List String) : String :=
  if segments = [] then "" else String.intercalate "." segments

/-- Modelled from the spec, for yup whose native issue path is already a
joined string: that string, or the empty string when absent (root-level). -/
def specYupPath (path : Option String) : String :=
  match path with
  | some p => p
  | none => ""

/-- Modelled from the spec, for valibot whose native issue path is an
optional list of keyed items: the keys joined with a dot, or the empty
string when the path is absent. -/
def specValibotPath (path : Option (List ValibotPathItem)) : String :=
  match path with
  | some items => specIssuePath (items.map (fun item => item.key))
  | none => ""

/-- A schema object whose shape matches none of the four detections. -/
def unrecognizedSchema : SchemaVal :=
  ⟨⟨false, false, false, false, false, false⟩, ⟨true, []⟩, .ok, .ok, ⟨none⟩⟩

/-- A schema object carrying every duck-typing marker at once; the zod
branch must win by priority. Its zod run rejects with one issue. -/
def allMarkersSchema : SchemaVal :=
  ⟨⟨true, true, true, true, true, true⟩,
   ⟨false, [⟨["email"], "required"⟩]⟩, .ok, .ok, ⟨none⟩⟩

/-- A form context supplying the all-markers schema and no imperative
errors. -/
def zodCtx : FormCtx Nat :=
  ⟨0, defaultValidate, some allMarkersSchema, defaultValidateOn⟩

/-- A form context supplying the unrecognized schema. -/
def unrecognizedCtx : FormCtx Nat :=
  ⟨0, defaultValidate, some unrecognizedSchema, defaultValidateOn⟩

/-- A schemaless form context whose imperative validator always reports one
error at path `email`. -/
def failingCtx : FormCtx Nat :=
  ⟨7, fun _ => [⟨"email", "required"⟩], none, defaultValidateOn⟩

/-- A schemaless form context that always validates cleanly. -/
def cleanCtx : FormCtx Nat :=
  ⟨7, defaultValidate, none, defaultValidateOn⟩

/-- A schemaless form context reporting fresh errors at paths a and b. -/
def twoPathCtx : FormCtx Nat :=
  ⟨0, fun _ => [⟨"a", "fresh-a"⟩, ⟨"b", "fresh-b"⟩], none, defaultValidateOn⟩

/-- A schemaless form context reporting one error at path a, with the
default trigger set. -/
def pathACtx : FormCtx Nat :=
  ⟨0, fun _ => [⟨"a", "m"⟩], none, defaultValidateOn⟩

/-- A schemaless form context reporting one error at path a, with the
trigger set reduced to blur only. -/
def blurOnlyCtx : FormCtx Nat :=
  ⟨0, fun _ => [⟨"a", "m"⟩], none, [.blur]⟩

/-- A registered-inputs map holding an identifier for path `email` only. -/
def emailInputs : String → Option String :=
  fun p => if p = "email" then some "input-0" else none

/-- A context combining an imperative error at `age` with a zod schema
rejecting at `email`. -/
def combinedCtx : FormCtx Nat :=
  ⟨0, fun _ => [⟨"age", "must be positive"⟩],
   some ⟨⟨true, false, false, false, false, false⟩,
         ⟨false, [⟨["email"], "required"⟩]⟩, .ok, .ok, ⟨none⟩⟩,
   defaultValidateOn⟩

/-! Helper lemmas shared by the claim theorems. -/

theorem specIssuePath_eq_intercalate (l : List String) :
    specIssuePath l = String.intercalate "." l := by
  cases l with
  | nil => rfl
  | cons a t => simp [specIssuePath]

theorem specYupPath_eq_getD (o : Option String) :
    specYupPath o = o.getD "" := by
  cases o <;> rfl

theorem jsOrElse_some_empty (s : String) : jsOrElse (some s) "" = s := by
  unfold jsOrElse
  by_cases h : s = "" <;> simp [h]

theorem specValibotPath_eq_jsOrElse (p : Option (List ValibotPathItem)) :
    specValibotPath p = jsOrElse (valibotJoined p) "" := by
  cases p with
  | none => rfl
  | some items =>
    show specIssuePath (items.map (fun item => item.key)) =
      jsOrElse (some (String.intercalate "." (items.map (fun item => item.key)))) ""
    rw [jsOrElse_some_empty, specIssuePath_eq_intercalate]

theorem filter_path_of_ne (l : List FormError) (p q : String) (h : q ≠ p) :
    (l.filter (fun e => e.path ≠ p)).filter (fun e => e.path = q) =
      l.filter (fun e => e.path = q) := by
  rw [List.filter_filter]
  apply List.filter_congr
  intro a _
  by_cases hq : a.path = q
  · simp [hq, h]
  · simp [hq]

theorem filter_path_eq_of_ne (l : List FormError) (p q : String) (h : q ≠ p) :
    (l.filter (fun e => e.path = p)).filter (fun e => e.path = q) = [] := by
  rw [List.filter_filter]
  apply List.filter_eq_nil_iff.mpr
  intro a _
  by_cases hq : a.path = q
  · have hap : a.path ≠ p := by rw [hq]; exact h
    simp [hq, hap, h]
  · simp [hq]

theorem validate_of_ok {α : Type} (ctx : FormCtx α) (prior : List FormError)
    (p : String) (silent : Bool) (newErrs : List FormError)
    (hp : p ≠ "") (h : getErrors ctx = .ok newErrs) :
    (validate ctx prior (some p) silent).1 =
      prior.filter (fun e => e.path ≠ p) ++
        newErrs.filter (fun e => e.path = p) := by
  simp [validate, h, hp]

theorem validate_of_error {α : Type} (ctx : FormCtx α) (prior : List FormError)
    (path : Option String) (silent : Bool) (e : JsError)
    (h : getErrors ctx = .error e) :
    validate ctx prior path silent = (prior, .error e) := by
  simp [validate, h]

theorem getYupErrors_no_formException (o : YupOutcome) (l : List FormError) :
    getYupErrors o ≠ .error (.formException l) := by
  cases o with
  | ok => simp [getYupErrors]
  | err e => cases he : e.inner <;> simp [getYupErrors, he]

theorem getJoiErrors_no_formException (o : JoiOutcome) (l : List FormError) :
    getJoiErrors o ≠ .error (.formException l) := by
  cases o with
  | ok => simp [getJoiErrors]
  | err e => cases he : e.isJoi <;> simp [getJoiErrors, he]

theorem getErrors_no_formException {α : Type} (ctx : FormCtx α)
    (l : List FormError) : getErrors ctx ≠ .error (.formException l) := by
  intro h
  unfold getErrors at h
  cases hs : ctx.schema with
  | none => rw [hs] at h; exact Except.noConfusion h
  | some s =>
    rw [hs] at h
    simp only at h
    split at h
    · exact Except.noConfusion h
    · split at h
      · cases hyo : getYupErrors s.yupOutcome with
        | ok v => rw [hyo] at h; exact Except.noConfusion h
        | error e =>
          rw [hyo] at h
          simp only [Except.map] at h
          cases h
          exact getYupErrors_no_formException s.yupOutcome l (hyo.trans (by rfl))
      · split at h
        · cases hjo : getJoiErrors s.joiOutcome with
          | ok v => rw [hjo] at h; exact Except.noConfusion h
          | error e =>
            rw [hjo] at h
            simp only [Except.map] at h
            cases h
            exact getJoiErrors_no_formException s.joiOutcome l (hjo.trans (by rfl))
        · split at h
          · exact Except.noConfusion h
          · cases h

/-- Claim C1: the spec states that `clear(p)` removes exactly the entries
whose path equals `p` and leaves every other entry untouched. The source
filter keeps the entries whose path equals `p` instead: on a collection
with one entry at path a and one at path b, `clear` at path a returns the
path-a entry alone, dropping the path-b entry — the exact opposite of the
claim — while `clear()` with no path does empty the collection. -/
theorem C1_clear_at_failing_input :
    clear [⟨"a", "m"⟩, ⟨"b", "n"⟩] (some "a") = [⟨"a", "m"⟩] ∧
    FormError.mk "b" "n" ∉ clear [⟨"a", "m"⟩, ⟨"b", "n"⟩] (some "a") ∧
    clear [⟨"a", "m"⟩, ⟨"b", "n"⟩] none = [] := by
  refine ⟨by decide, by decide, rfl⟩

/-- Claim C2: the spec states that `setErrors(E, p)` replaces only the
entries at path `p`, preserving the prior entries at every other path. The
source assigns `errors.value = errs` before filtering, so the filter runs
on the new list instead of the prior collection: starting from a prior
collection holding one entry at path a, `setErrors` with one entry at path
b and path b returns only the path-b entry — the prior path-a entry is
lost, contradicting the claim. -/
theorem C2_setErrors_at_failing_input :
    setErrors [⟨"a", "m"⟩] [⟨"b", "n"⟩] (some "b") = [⟨"b", "n"⟩] ∧
    FormError.mk "a" "m" ∉ setErrors [⟨"a", "m"⟩] [⟨"b", "n"⟩] (some "b") := by
  refine ⟨by decide, by decide⟩

/-- Claim C3: schema detection is duck-typed in source order with first
match winning — `parse` present gives zod; otherwise truthy `validate` and
`__isYupSchema__` give yup; otherwise `validateAsync` and `id` present give
joi; otherwise `_parse` present gives valibot — and a schema matching none
of the four makes `getErrors` throw the unsupported-schema error, which is
never an ok value and which `validate` propagates to its caller with the
collection untouched. -/
theorem C3_detection_priority_and_unsupported {α : Type} (ctx : FormCtx α)
    (s : SchemaVal) (hs : ctx.schema = some s) :
    (isZodSchema s.shape = true →
       getErrors ctx =
         .ok (ctx.validateProp ctx.state ++ getZodErrors s.zodResult)) ∧
    (isZodSchema s.shape = false → isYupSchema s.shape = true →
       getErrors ctx =
         (getYupErrors s.yupOutcome).map
           (fun l => ctx.validateProp ctx.state ++ l)) ∧
    (isZodSchema s.shape = false → isYupSchema s.shape = false →
       isJoiSchema s.shape = true →
       getErrors ctx =
         (getJoiErrors s.joiOutcome).map
           (fun l => ctx.validateProp ctx.state ++ l)) ∧
    (isZodSchema s.shape = false → isYupSchema s.shape = false →
       isJoiSchema s.shape = false → isValibotSchema s.shape = true →
       getErrors ctx =
         .ok (ctx.validateProp ctx.state ++ getValibotError s.valibotResult)) ∧
    (isZodSchema s.shape = false → isYupSchema s.shape = false →
       isJoiSchema s.shape = false → isValibotSchema s.shape = false →
       getErrors ctx = .error .unsupportedSchema ∧
       (∀ l, getErrors ctx ≠ .ok l) ∧
       (∀ prior path silent,
          validate ctx prior path silent =
            (prior, .error .unsupportedSchema))) := by
  refine ⟨?_, ?_, ?_, ?_, ?_⟩
  · intro h1
    simp [getErrors, hs, h1]
  · intro h1 h2
    simp [getErrors, hs, h1, h2]
  · intro h1 h2 h3
    simp [getErrors, hs, h1, h2, h3]
  · intro h1 h2 h3 h4
    simp [getErrors, hs, h1, h2, h3, h4]
  · intro h1 h2 h3 h4
    have hge : getErrors ctx = .error .unsupportedSchema := by
      simp [getErrors, hs, h1, h2, h3, h4]
    refine ⟨hge, ?_, ?_⟩
    · intro l hl
      rw [hge] at hl
      exact Except.noConfusion hl
    · intro prior path silent
      exact validate_of_error ctx prior path silent _ hge

/-- Witness for C3: a schema carrying every duck-typing marker is
normalized through its zod run (priority of the first match), and a schema
matching no shape makes `getErrors` throw the unsupported-schema error. -/
theorem C3_witness :
    zodCtx.schema = some allMarkersSchema ∧
    isZodSchema allMarkersSchema.shape = true ∧
    getErrors zodCtx = .ok [⟨"email", "required"⟩] ∧
    unrecognizedCtx.schema = some unrecognizedSchema ∧
    getErrors unrecognizedCtx = .error .unsupportedSchema ∧
    validate unrecognizedCtx [⟨"a", "m"⟩] none false =
      ([⟨"a", "m"⟩], .error .unsupportedSchema) := by
  refine ⟨rfl, rfl, ?_, rfl, ?_, ?_⟩
  · have h :=
      (C3_detection_priority_and_unsupported zodCtx allMarkersSchema rfl).1 rfl
    exact h.trans (congrArg Except.ok (by decide))
  · exact ((C3_detection_priority_and_unsupported unrecognizedCtx
      unrecognizedSchema rfl).2.2.2.2 rfl rfl rfl rfl).1
  · exact ((C3_detection_priority_and_unsupported unrecognizedCtx
      unrecognizedSchema rfl).2.2.2.2 rfl rfl rfl rfl).2.2 [⟨"a", "m"⟩] none false

/-- Claim C4: for each supported schema kind, native acceptance normalizes
to the empty sequence, and native rejection normalizes to exactly one
FieldError per native issue, carrying the native message verbatim and the
path prescribed by the spec — the issue path segments joined with a dot, or
the empty string when the issue has no path segments. -/
theorem C4_normalize_per_kind :
    (∀ r : ZodParseResult,
      (r.success = true → getZodErrors r = []) ∧
      (r.success = false →
        getZodErrors r =
          r.issues.map (fun i => ⟨specIssuePath i.path, i.message⟩))) ∧
    (getYupErrors .ok = .ok []) ∧
    (∀ (e : YupFailure) (issues : List YupIssue), e.inner = some issues →
      getYupErrors (.err e) =
        .ok (issues.map (fun i => ⟨specYupPath i.path, i.message⟩))) ∧
    (getJoiErrors .ok = .ok []) ∧
    (∀ e : JoiFailure, e.isJoi = true →
      getJoiErrors (.err e) =
        .ok (e.details.map (fun d => ⟨specIssuePath d.path, d.message⟩))) ∧
    (∀ r : ValibotParseResult, r.issues = none → getValibotError r = []) ∧
    (∀ (r : ValibotParseResult) (issues : List ValibotIssue),
      r.issues = some issues →
      getValibotError r =
        issues.map (fun i => ⟨specValibotPath i.path, i.message⟩)) := by
  refine ⟨?_, rfl, ?_, rfl, ?_, ?_, ?_⟩
  · intro r
    constructor
    · intro h
      simp [getZodErrors, h]
    · intro h
      simp [getZodErrors, h, specIssuePath_eq_intercalate]
  · intro e issues h
    simp [getYupErrors, h, specYupPath_eq_getD]
  · intro e h
    simp [getJoiErrors, h, specIssuePath_eq_intercalate]
  · intro r h
    simp [getValibotError, h]
  · intro r issues h
    simp [getValibotError, h, specValibotPath_eq_jsOrElse]

/-- Witness for C4: evaluation of each normalizer at concrete native
results, for the rejecting and the accepting case. -/
theorem C4_witness :
    (ZodParseResult.mk false [⟨["address", "city"], "too short"⟩]).success
        = false ∧
    getZodErrors ⟨false, [⟨["address", "city"], "too short"⟩]⟩ =
      [⟨"address.city", "too short"⟩] ∧
    getZodErrors ⟨true, []⟩ = [] ∧
    (YupFailure.mk (some [⟨none, "root bad"⟩])).inner =
      some [⟨none, "root bad"⟩] ∧
    getYupErrors (.err ⟨some [⟨none, "root bad"⟩]⟩) =
      .ok [⟨"", "root bad"⟩] ∧
    (JoiFailure.mk true [⟨["x"], "joi bad"⟩]).isJoi = true ∧
    getJoiErrors (.err ⟨true, [⟨["x"], "joi bad"⟩]⟩) = .ok [⟨"x", "joi bad"⟩] ∧
    (ValibotParseResult.mk (some [⟨none, "vroot"⟩])).issues =
      some [⟨none, "vroot"⟩] ∧
    getValibotError ⟨some [⟨none, "vroot"⟩]⟩ = [⟨"", "vroot"⟩] := by
  refine ⟨rfl, ?_, ?_, rfl, ?_, rfl, ?_, rfl, ?_⟩
  · exact ((C4_normalize_per_kind.1
      ⟨false, [⟨["address", "city"], "too short"⟩]⟩).2 rfl).trans (by decide)
  · exact (C4_normalize_per_kind.1 ⟨true, []⟩).1 rfl
  · exact (C4_normalize_per_kind.2.2.1 ⟨some [⟨none, "root bad"⟩]⟩
      [⟨none, "root bad"⟩] rfl).trans (congrArg Except.ok (by decide))
  · exact (C4_normalize_per_kind.2.2.2.2.1 ⟨true, [⟨["x"], "joi bad"⟩]⟩
      rfl).trans (congrArg Except.ok (by decide))
  · exact (C4_normalize_per_kind.2.2.2.2.2.2 ⟨some [⟨none, "vroot"⟩]⟩
      [⟨none, "vroot"⟩] rfl).trans (by decide)

/-- Claim C5: `validate()` with no path in non-silent mode replaces the
whole collection with the freshly computed errors, throws the
validation-failed `FormException` exactly when that collection is
non-empty, and otherwise resolves with the form state unchanged. -/
theorem C5_validateAll {α : Type} (ctx : FormCtx α) (prior : List FormError)
    (newErrs : List FormError) (h : getErrors ctx = .ok newErrs) :
    (validate ctx prior none false).1 = newErrs ∧
    ((validate ctx prior none false).2 = .error (.formException newErrs) ↔
      newErrs ≠ []) ∧
    (newErrs = [] → (validate ctx prior none false).2 = .ok ctx.state) := by
  refine ⟨by simp [validate, h], ?_, ?_⟩
  · cases newErrs with
    | nil => simp [validate, h]
    | cons a t => simp [validate, h]
  · intro hn
    subst hn
    simp [validate, h]

/-- Witness for C5: a failing context throws the `FormException` carrying
the recomputed collection, a clean context replaces a stale collection with
the empty one and resolves with its state. -/
theorem C5_validateAll_witness :
    getErrors failingCtx = .ok [⟨"email", "required"⟩] ∧
    (validate failingCtx [] none false).1 = [⟨"email", "required"⟩] ∧
    (validate failingCtx [] none false).2 =
      .error (.formException [⟨"email", "required"⟩]) ∧
    getErrors cleanCtx = .ok [] ∧
    (validate cleanCtx [⟨"a", "stale"⟩] none false).1 = [] ∧
    (validate cleanCtx [⟨"a", "stale"⟩] none false).2 = .ok 7 := by
  refine ⟨rfl, ?_, ?_, rfl, ?_, ?_⟩
  · exact (C5_validateAll failingCtx [] [⟨"email", "required"⟩] rfl).1
  · exact ((C5_validateAll failingCtx [] [⟨"email", "required"⟩] rfl).2.1).mpr
      (by decide)
  · exact (C5_validateAll cleanCtx [⟨"a", "stale"⟩] [] rfl).1
  · exact (C5_validateAll cleanCtx [⟨"a", "stale"⟩] [] rfl).2.2 rfl

/-- Claim C6 counterexample: the claim quantifies over every path `p`, but
the source guards the path with JavaScript truthiness (`if (path)`), so
`validate("")` takes the whole-collection branch: on a context whose error
computation returns the empty list, silent validation of the empty path
from a prior collection holding one entry at path a replaces the whole
collection with the empty one — the entry at path a, a path different from
the validated one, is not preserved. -/
theorem C6_counterexample :
    ("a" : String) ≠ "" ∧
    getErrors cleanCtx = .ok [] ∧
    (validate cleanCtx [⟨"a", "old"⟩] (some "") true).1 = [] ∧
    (validate cleanCtx [⟨"a", "old"⟩] (some "") true).1.filter
        (fun e => e.path = "a") ≠
      [FormError.mk "a" "old"].filter (fun e => e.path = "a") := by
  refine ⟨by decide, rfl, by decide, by decide⟩

/-- Claim C6 as amended: per-field validation of a non-empty (JS-truthy)
path `p` leaves the entries at any other path `q` exactly as they were in
the prior collection, in silent and non-silent mode alike, and also when
the error computation itself throws; the empty path is falsy and triggers
whole-collection replacement instead. -/
theorem C6_validateField_frame {α : Type} (ctx : FormCtx α)
    (prior : List FormError) (p q : String) (silent : Bool)
    (hp : p ≠ "") (hq : q ≠ p) :
    (validate ctx prior (some p) silent).1.filter (fun e => e.path = q) =
      prior.filter (fun e => e.path = q) := by
  cases hge : getErrors ctx with
  | error e =>
    rw [validate_of_error ctx prior (some p) silent e hge]
  | ok newErrs =>
    rw [validate_of_ok ctx prior p silent newErrs hp hge, List.filter_append,
      filter_path_of_ne prior p q hq, filter_path_eq_of_ne newErrs p q hq,
      List.append_nil]

/-- Witness for C6: validating the non-empty path a on a context that
reports fresh errors at paths a and b does not change what is recorded at
path b. -/
theorem C6_validateField_frame_witness :
    ("a" : String) ≠ "" ∧
    ("b" ≠ "a") ∧
    (validate twoPathCtx [⟨"b", "old-b"⟩, ⟨"a", "old-a"⟩] (some "a")
        true).1.filter (fun e => e.path = "b") =
      [FormError.mk "b" "old-b", ⟨"a", "old-a"⟩].filter
        (fun e => e.path = "b") :=
  ⟨by decide, by decide,
   C6_validateField_frame twoPathCtx [⟨"b", "old-b"⟩, ⟨"a", "old-a"⟩]
     "a" "b" true (by decide) (by decide)⟩

/-- Claim C7: when submit-time full validation fails, `onSubmit` catches
the `FormException` and emits the error event carrying the collection
enriched with the registered input identifier at each error path, instead
of the submit event; the `FormException` never escapes `onSubmit`; and an
exception thrown by the error computation that is not the `FormException`
propagates unchanged. -/
theorem C7_submit_error_routing {α : Type} (ctx : FormCtx α)
    (inputs : String → Option String) (prior : List FormError) :
    (∀ newErrs, ctx.validateOn.contains .submit = true →
       getErrors ctx = .ok newErrs → newErrs ≠ [] →
       onSubmit ctx inputs prior =
         (newErrs, .errorEmitted (newErrs.map (enrich inputs)))) ∧
    (∀ l, (onSubmit ctx inputs prior).2 ≠ .thrown (.formException l)) ∧
    (∀ e, ctx.validateOn.contains .submit = true →
       getErrors ctx = .error e →
       (onSubmit ctx inputs prior).2 = .thrown e) := by
  refine ⟨?_, ?_, ?_⟩
  · intro newErrs hsub hge hne
    have hlen : decide (newErrs.length > 0) = true := by
      cases newErrs with
      | nil => exact absurd rfl hne
      | cons a t => simp
    have hmem : FormEventType.submit ∈ ctx.validateOn := by simpa using hsub
    simp [onSubmit, hmem, validate, hge, hlen]
  · intro l hl
    by_cases hsub : ctx.validateOn.contains .submit
    · cases hge : getErrors ctx with
      | error e =>
        cases e with
        | formException m =>
          exact getErrors_no_formException ctx m hge
        | unsupportedSchema =>
          rw [onSubmit, if_pos hsub,
            validate_of_error ctx prior none false _ hge] at hl
          simp at hl
        | yupNative e2 =>
          rw [onSubmit, if_pos hsub,
            validate_of_error ctx prior none false _ hge] at hl
          simp at hl
        | joiNative e2 =>
          rw [onSubmit, if_pos hsub,
            validate_of_error ctx prior none false _ hge] at hl
          simp at hl
      | ok newErrs =>
        rw [onSubmit, if_pos hsub] at hl
        by_cases hlen : decide (newErrs.length > 0) = true
        · simp [validate, hge, hlen] at hl
        · simp [validate, hge, hlen] at hl
    · rw [onSubmit, if_neg hsub] at hl
      exact SubmitOutcome.noConfusion hl
  · intro e hsub hge
    rw [onSubmit, if_pos hsub, validate_of_error ctx prior none false e hge]
    cases e with
    | formException m => exact absurd hge (getErrors_no_formException ctx m)
    | unsupportedSchema => rfl
    | yupNative e2 => rfl
    | joiNative e2 => rfl

/-- Witness for C7: a failing submit on the default trigger set emits the
error event with the enriched collection. -/
theorem C7_submit_error_routing_witness :
    failingCtx.validateOn.contains FormEventType.submit = true ∧
    getErrors failingCtx = .ok [⟨"email", "required"⟩] ∧
    ([FormError.mk "email" "required"] ≠ []) ∧
    onSubmit failingCtx emailInputs [] =
      ([⟨"email", "required"⟩],
       .errorEmitted [⟨"email", "required", some "input-0"⟩]) := by
  refine ⟨rfl, rfl, by decide, ?_⟩
  have h := (C7_submit_error_routing failingCtx emailInputs []).1
    [⟨"email", "required"⟩] rfl rfl (by decide)
  exact h.trans (by decide)

/-- Claim C8 counterexample: the claim states that the bus listener re-runs
silent per-field validation exactly when the event type is in the trigger
set. With the default trigger set — which contains `submit` — a bus event
of type `submit` at path a leaves the collection empty, although the silent
per-field validation the claim requires would have recorded the error at
path a: the listener explicitly skips `submit`-typed events. -/
theorem C8_counterexample :
    pathACtx.validateOn.contains FormEventType.submit = true ∧
    busHandler pathACtx [] ⟨.submit, "a"⟩ = [] ∧
    (validate pathACtx [] (some "a") true).1 = [⟨"a", "m"⟩] ∧
    busHandler pathACtx [] ⟨.submit, "a"⟩ ≠
      (validate pathACtx [] (some "a") true).1 := by
  refine ⟨rfl, by decide, by decide, by decide⟩

/-- Claim C8 as amended: the bus listener re-runs silent validation for
the event path — the per-field pass for a non-empty path, whole-collection
replacement for the falsy empty path, exactly as `validate` treats its path
argument — precisely when the event type is in the configured trigger set
and is not `submit`; an event whose type is outside the set, or is
`submit`, leaves the collection untouched. -/
theorem C8_amended_trigger_set {α : Type} (ctx : FormCtx α)
    (prior : List FormError) (event : FormEvent) :
    (event.type ≠ .submit → ctx.validateOn.contains event.type = true →
       busHandler ctx prior event =
         (validate ctx prior (some event.path) true).1) ∧
    (ctx.validateOn.contains event.type = false →
       busHandler ctx prior event = prior) ∧
    (event.type = .submit → busHandler ctx prior event = prior) := by
  refine ⟨?_, ?_, ?_⟩
  · intro h1 h2
    have hmem : event.type ∈ ctx.validateOn := by simpa using h2
    simp [busHandler, h1, hmem]
  · intro h
    have hmem : event.type ∉ ctx.validateOn := by simpa using h
    simp [busHandler, hmem]
  · intro h
    simp [busHandler, h]

/-- Witness for the amended C8: with the trigger set reduced to blur, a
blur event revalidates its path, an input event leaves the collection
untouched, and a submit event leaves it untouched as well. -/
theorem C8_amended_trigger_set_witness :
    (FormEventType.blur ≠ FormEventType.submit) ∧
    blurOnlyCtx.validateOn.contains FormEventType.blur = true ∧
    busHandler blurOnlyCtx [] ⟨.blur, "a"⟩ =
      (validate blurOnlyCtx [] (some "a") true).1 ∧
    blurOnlyCtx.validateOn.contains FormEventType.input = false ∧
    busHandler blurOnlyCtx [] ⟨.input, "a"⟩ = [] ∧
    busHandler blurOnlyCtx [] ⟨.submit, "a"⟩ = [] := by
  refine ⟨by decide, rfl, ?_, rfl, ?_, ?_⟩
  · exact (C8_amended_trigger_set blurOnlyCtx [] ⟨.blur, "a"⟩).1
      (by decide) rfl
  · exact (C8_amended_trigger_set blurOnlyCtx [] ⟨.input, "a"⟩).2.1 rfl
  · exact (C8_amended_trigger_set blurOnlyCtx [] ⟨.submit, "a"⟩).2.2 rfl

/-- Claim C9: during normalization, a native error that does not match the
detected kind's validation-failure shape — yup: `inner` absent; joi:
`isJoi` not true — is re-thrown unchanged to the caller rather than being
translated into FieldErrors. -/
theorem C9_unrecognized_native_rethrown (e : YupFailure) (e2 : JoiFailure)
    (hy : e.inner = none) (hj : e2.isJoi = false) :
    getYupErrors (.err e) = .error (.yupNative e) ∧
    getJoiErrors (.err e2) = .error (.joiNative e2) := by
  constructor
  · simp [getYupErrors, hy]
  · simp [getJoiErrors, hj]

/-- Witness for C9: a thrown value without `inner` and a thrown value with
`isJoi` false are re-thrown carrying the original value. -/
theorem C9_unrecognized_native_rethrown_witness :
    (YupFailure.mk none).inner = none ∧
    (JoiFailure.mk false [⟨["x"], "msg"⟩]).isJoi = false ∧
    getYupErrors (.err ⟨none⟩) = .error (.yupNative ⟨none⟩) ∧
    getJoiErrors (.err ⟨false, [⟨["x"], "msg"⟩]⟩) =
      .error (.joiNative ⟨false, [⟨["x"], "msg"⟩]⟩) := by
  refine ⟨rfl, rfl, ?_, ?_⟩
  · exact (C9_unrecognized_native_rethrown ⟨none⟩ ⟨false, [⟨["x"], "msg"⟩]⟩
      rfl rfl).1
  · exact (C9_unrecognized_native_rethrown ⟨none⟩ ⟨false, [⟨["x"], "msg"⟩]⟩
      rfl rfl).2

/-- Claim C10: on every validation pass the imperative validator runs
first — its results are the prefix of the computed error sequence, with the
schema adapter results concatenated after them — the default imperative
validator contributes the empty sequence, no schema means the imperative
results stand alone, and path-filtering in per-field validation (of a
non-empty, JS-truthy path) is applied to the already concatenated
sequence. -/
theorem C10_imperative_first {α : Type} (ctx : FormCtx α) :
    (∀ l, getErrors ctx = .ok l →
       ∃ schemaErrs, l = ctx.validateProp ctx.state ++ schemaErrs) ∧
    (ctx.schema = none → getErrors ctx = .ok (ctx.validateProp ctx.state)) ∧
    (∀ p prior l, p ≠ "" → getErrors ctx = .ok l →
       (validate ctx prior (some p) true).1 =
         prior.filter (fun e => e.path ≠ p) ++
           l.filter (fun e => e.path = p)) ∧
    (defaultValidate ctx.state = ([] : List FormError)) := by
  refine ⟨?_, ?_, ?_, rfl⟩
  · intro l hl
    unfold getErrors at hl
    cases hs : ctx.schema with
    | none =>
      rw [hs] at hl
      simp only at hl
      cases hl
      exact ⟨[], (List.append_nil _).symm⟩
    | some s =>
      rw [hs] at hl
      simp only at hl
      split at hl
      · cases hl
        exact ⟨getZodErrors s.zodResult, rfl⟩
      · split at hl
        · cases hyo : getYupErrors s.yupOutcome with
          | ok v =>
            rw [hyo] at hl
            simp only [Except.map] at hl
            cases hl
            exact ⟨v, rfl⟩
          | error e =>
            rw [hyo] at hl
            simp only [Except.map] at hl
            exact Except.noConfusion hl
        · split at hl
          · cases hjo : getJoiErrors s.joiOutcome with
            | ok v =>
              rw [hjo] at hl
              simp only [Except.map] at hl
              cases hl
              exact ⟨v, rfl⟩
            | error e =>
              rw [hjo] at hl
              simp only [Except.map] at hl
              exact Except.noConfusion hl
          · split at hl
            · cases hl
              exact ⟨getValibotError s.valibotResult, rfl⟩
            · exact Except.noConfusion hl
  · intro hs
    simp [getErrors, hs]
  · intro p prior l hp hl
    exact validate_of_ok ctx prior p true l hp hl

/-- Witness for C10: an imperative error at `age` precedes the schema
error at `email` in the computed sequence, and per-field validation of
`email` filters that concatenated sequence. -/
theorem C10_imperative_first_witness :
    getErrors combinedCtx =
      .ok [⟨"age", "must be positive"⟩, ⟨"email", "required"⟩] ∧
    ("email" : String) ≠ "" ∧
    (∃ schemaErrs,
       [FormError.mk "age" "must be positive", ⟨"email", "required"⟩] =
         combinedCtx.validateProp combinedCtx.state ++ schemaErrs) ∧
    (validate combinedCtx [] (some "email") true).1 =
      [⟨"email", "required"⟩] := by
  refine ⟨rfl, by decide, ?_, ?_⟩
  · exact (C10_imperative_first combinedCtx).1
      [⟨"age", "must be positive"⟩, ⟨"email", "required"⟩] rfl
  · have h := (C10_imperative_first combinedCtx).2.2.1 "email" []
      [⟨"age", "must be positive"⟩, ⟨"email", "required"⟩] (by decide) rfl
    exact h.trans (by decide)

end NuxtForm
